import Mathlib

/-!
Verification development for the PPoGATT layer (src/rcore/ppogatt.c).

The first part embeds the code that is actually present in the source file:
the constants, the packet struct, the rx task loop (a stub that echoes every
packet from the rx queue onto the tx queue), the tx task retry loop, and the
two interrupt-context callbacks.

The second part models, from the specification, the reliable-delivery engine
that the source file only describes in its comments (frame codec, receive
engine, transmit window): the rx/tx tasks in the source are an explicit stub
and that engine has no code under src, so those definitions carry doc
comments starting with the words Modelled from the spec.
-/

set_option autoImplicit false

/-! ### Constants and data, from src/rcore/ppogatt.c -/

/-- PPOGATT_MTU from the source: maximum frame size in bytes, header included. -/
def PPOGATT_MTU : Nat := 256

/-- PPOGATT_RX_QUEUE_SIZE from the source: depth of the rx task inbox. -/
def PPOGATT_RX_QUEUE_SIZE : Nat := 4

/-- PPOGATT_TX_QUEUE_SIZE from the source: depth of the tx task inbox. -/
def PPOGATT_TX_QUEUE_SIZE : Nat := 4

/-- enum ppogatt_cmd from the source. -/
inductive ppogatt_cmd where
  | PPOGATT_CMD_DATA
  | PPOGATT_CMD_ACK
  | PPOGATT_CMD_RESET_REQ
  | PPOGATT_CMD_RESET_ACK
  deriving DecidableEq

/-- The numeric value each enumerator has in the source (0, 1, 2, 3). -/
def ppogatt_cmd.val : ppogatt_cmd → Nat
  | .PPOGATT_CMD_DATA => 0
  | .PPOGATT_CMD_ACK => 1
  | .PPOGATT_CMD_RESET_REQ => 2
  | .PPOGATT_CMD_RESET_ACK => 3

/-- struct ppogatt_packet from the source: a length field and a byte buffer.
`buf` models the first `len` meaningful bytes of the 256-byte array. -/
structure ppogatt_packet where
  len : Nat
  buf : List Nat
  deriving DecidableEq

/-! ### The rx task loop body (the stub echo) -/

/-- The two queues the rx task body touches, each modelled as the list of
packets currently enqueued, head = front of the queue. -/
structure EchoQueues where
  rxQ : List ppogatt_packet
  txQ : List ppogatt_packet
  deriving DecidableEq

/-- One iteration of the rx task loop from the source: dequeue a packet from
the rx queue and enqueue the very same packet onto the tx queue (the comment
in the source reads: just echo it).  `none` when the inbox is empty, in which
case the task stays blocked in its receive call. -/
def ppogatt_rx_main_step (s : EchoQueues) : Option EchoQueues :=
  match s.rxQ with
  | [] => none
  | pkt :: rest => some ⟨rest, s.txQ ++ [pkt]⟩

/-! ### The kernel calls each routine performs, in program order -/

/-- The two queues of the module. -/
inductive QueueId where
  | ppogatt_rx
  | ppogatt_tx
  deriving DecidableEq

/-- A FreeRTOS timeout argument: a finite tick count, or portMAX_DELAY. -/
inductive KTimeout where
  | ticks (n : Nat)
  | maxDelay
  deriving DecidableEq

/-- The kernel and driver calls appearing in the task loop bodies. -/
inductive KernelOp where
  | xQueueReceive (q : QueueId) (t : KTimeout)
  | xQueueSendToBack (q : QueueId) (t : KTimeout)
  | ulTaskNotifyTake (t : KTimeout)
  | drvLog
  | bleTx
  deriving DecidableEq

/-- Whether a call can suspend the calling task, per FreeRTOS semantics: a
queue receive or send with a nonzero timeout can block, as can a notify take
with a nonzero timeout; logging and the non-blocking driver send cannot. -/
def KernelOp.canBlock : KernelOp → Bool
  | .xQueueReceive _ (.ticks 0) => false
  | .xQueueReceive _ _ => true
  | .xQueueSendToBack _ (.ticks 0) => false
  | .xQueueSendToBack _ _ => true
  | .ulTaskNotifyTake (.ticks 0) => false
  | .ulTaskNotifyTake _ => true
  | .drvLog => false
  | .bleTx => false

/-- The calls the rx task loop body performs, in program order: receive from
its own inbox with portMAX_DELAY, log, then send onto the tx queue with
portMAX_DELAY. -/
def ppogatt_rx_main_ops : List KernelOp :=
  [.xQueueReceive .ppogatt_rx .maxDelay, .drvLog,
   .xQueueSendToBack .ppogatt_tx .maxDelay]

/-- The calls the tx task loop body performs: receive from its own inbox with
portMAX_DELAY, attempt the driver send, and, inside the retry loop, a notify
take bounded at pdMS_TO_TICKS 250 followed by a possible warning log. -/
def ppogatt_tx_main_ops : List KernelOp :=
  [.xQueueReceive .ppogatt_tx .maxDelay, .bleTx,
   .ulTaskNotifyTake (.ticks 250), .drvLog]

/-! ### Interrupt-context callbacks -/

/-- Result of running an interrupt-context callback: the rx queue afterwards,
how many log messages were emitted, and whether the call blocked. -/
structure IsrRxResult where
  queue : List ppogatt_packet
  logs : Nat
  blocked : Bool
  deriving DecidableEq

/-- Embedding of the rx callback from the source: copy the inbound bytes into
the static packet, then xQueueSendFromISR onto the rx queue.  The send is
non-blocking; when the queue is full it fails, and the source ignores the
return value (the comment reads: if it fails we will retransmit later) — so
the event is dropped and nothing is logged. -/
def ppogatt_callback_rx (q : List ppogatt_packet) (buf : List Nat) : IsrRxResult :=
  if q.length < PPOGATT_RX_QUEUE_SIZE then
    ⟨q ++ [⟨buf.length, buf⟩], 0, false⟩
  else
    ⟨q, 0, false⟩

/-- Embedding of the txready callback from the source: a single
vTaskNotifyGiveFromISR, modelled as bumping the notification count; the call
cannot block. -/
def ppogatt_callback_txready (notifyCount : Nat) : Nat × Bool :=
  (notifyCount + 1, false)

/-! ### The tx task retry loop -/

/-- One observed environment response per send attempt: the return value of
the driver send call, and — consulted only when that send failed — the return
value of the subsequent bounded notify wait (0 means the wait timed out). -/
structure TxAttemptEnv where
  sendRv : Int
  notifyRv : Nat
  deriving DecidableEq

/-- The inner retry loop of the tx task, run against a finite trace of
environment responses: while the driver send returns a negative value, wait
for the tx-ready notification with a 250 ms bound, log a warning if the wait
returned 0, and retry the same packet.  Returns the list of packets passed to
the driver send call (one per attempt), the number of warnings logged, and
whether the send completed within the trace. -/
def ppogatt_tx_retry (pkt : ppogatt_packet) :
    List TxAttemptEnv → List ppogatt_packet × Nat × Bool
  | [] => ([], 0, false)
  | e :: rest =>
    if e.sendRv < 0 then
      let r := ppogatt_tx_retry pkt rest
      (pkt :: r.1, (if e.notifyRv = 0 then 1 else 0) + r.2.1, r.2.2)
    else
      ([pkt], 0, true)

/-! ### The memcpy in the rx callback -/

/-- The error case of the unchecked copy. -/
inductive CopyErr where
  | outOfBounds
  deriving DecidableEq

/-- Embedding of the memcpy in the rx callback: the source copies `len` bytes
into the 256-byte static buffer with no bounds check, so a call with more
than PPOGATT_MTU bytes writes out of bounds, embedded as the error case;
otherwise the resulting packet carries exactly the input bytes and length. -/
def ppogatt_callback_rx_copy (buf : List Nat) : Except CopyErr ppogatt_packet :=
  if buf.length ≤ PPOGATT_MTU then .ok ⟨buf.length, buf⟩
  else .error .outOfBounds

/-! ### The reliable-delivery engine, modelled from the specification.

The source file documents this engine in its leading comment and in the two
XXX comments but implements only the echo stub above, so the definitions
below are taken from the words of the specification (the command codes, the
MTU and the header packing are from the source). -/

/-- Modelled from the spec: a protocol frame (missing from src — the source
has no frame type beyond the raw packet). Command, 5-bit sequence number
carried modulo 32, and payload bytes. -/
structure PFrame where
  cmd : ppogatt_cmd
  seq : Nat
  payload : List Nat
  deriving DecidableEq

/-- Modelled from the spec: the frame encoder (missing from src). Byte 0
packs the sequence number in the 5 high bits and the command in the 3 low
bits, exactly the bitfield the source comment documents; payload bytes follow
only for DATA frames. -/
def ppogatt_encode (f : PFrame) : List Nat :=
  (((f.seq % 32) <<< 3) ||| f.cmd.val) ::
    (match f.cmd with
     | .PPOGATT_CMD_DATA => f.payload
     | _ => [])

/-- Events the receive engine emits while processing one frame: a payload
delivered upward through the delivery callback, a new cumulative
acknowledgement to send, an acknowledgement resend, a RESET_ACK reply, and
the two events forwarded to the transmit engine. -/
inductive RxOut where
  | deliver (payload : List Nat)
  | sendAck (seq : Nat)
  | resendAck (seq : Nat)
  | sendResetAck
  | txAckClear (seq : Nat)
  | txReset
  | txWindowClear
  deriving DecidableEq

/-- State owned by the receive engine: the next expected sequence number and
the last sequence it acknowledged (none right after a reset). -/
structure RxState where
  rx_expected_seq : Nat
  lastAcked : Option Nat
  deriving DecidableEq

/-- The receive-engine state at session creation or reset. -/
def rxInitState : RxState := ⟨0, none⟩

/-- Modelled from the spec: the receive engine (missing from src), section
4.2 of the spec. In-order DATA is delivered upward and acknowledged and the
expected sequence advances by one modulo 32; DATA matching the last
acknowledged sequence is discarded but its acknowledgement is re-emitted; any
other DATA sequence is a gap, discarded silently with no output of any kind;
ACK frames are forwarded to the transmit engine as a cumulative clear;
RESET_REQ resets the state to zero and replies RESET_ACK while signalling the
transmit engine; RESET_ACK clears the local window state. -/
def rxStep (st : RxState) (f : PFrame) : RxState × List RxOut :=
  match f.cmd with
  | .PPOGATT_CMD_DATA =>
    if f.seq % 32 = st.rx_expected_seq then
      (⟨(st.rx_expected_seq + 1) % 32, some (f.seq % 32)⟩,
       [.deliver f.payload, .sendAck (f.seq % 32)])
    else if some (f.seq % 32) = st.lastAcked then
      (st, [.resendAck (f.seq % 32)])
    else
      (st, [])
  | .PPOGATT_CMD_ACK => (st, [.txAckClear (f.seq % 32)])
  | .PPOGATT_CMD_RESET_REQ => (⟨0, none⟩, [.sendResetAck, .txReset])
  | .PPOGATT_CMD_RESET_ACK => (st, [.txWindowClear])

/-- Run the receive engine over a list of inbound frames, collecting all
emitted events in order. -/
def rxRun : RxState → List PFrame → RxState × List RxOut
  | st, [] => (st, [])
  | st, f :: fs =>
    let r1 := rxStep st f
    let r2 := rxRun r1.1 fs
    (r2.1, r1.2 ++ r2.2)

/-- The payloads delivered upward (through the delivery callback) among a
list of emitted events, in order. -/
def deliveredPayloads (outs : List RxOut) : List (List Nat) :=
  outs.filterMap fun o =>
    match o with
    | .deliver p => some p
    | _ => none

/-- The sequence numbers acknowledged to the peer (new acknowledgements and
acknowledgement resends) among a list of emitted events. -/
def ackSeqsOf (outs : List RxOut) : List Nat :=
  outs.filterMap fun o =>
    match o with
    | .sendAck s => some s
    | .resendAck s => some s
    | _ => none

/-- Modelled from the spec: the loss-free frame sequence the transmit engine
produces for a list of submitted payloads (missing from src) — submit assigns
consecutive sequence numbers modulo 32 starting from the given one, and with
no loss the frames arrive in submission order. -/
def mkDataFrames : Nat → List (List Nat) → List PFrame
  | _, [] => []
  | s, p :: ps => ⟨.PPOGATT_CMD_DATA, s % 32, p⟩ :: mkDataFrames (s + 1) ps

/-- A RESET_REQ frame (the sequence bits are not used by the reset path). -/
def resetReqFrame : PFrame := ⟨.PPOGATT_CMD_RESET_REQ, 0, []⟩

/-! ### The transmit window, modelled from the specification -/

/-- Modelled from the spec: an outstanding (sent, unacknowledged) entry of
the transmit window (missing from src). -/
structure OutstandingEntry where
  seq : Nat
  payload : List Nat
  deriving DecidableEq

/-- Modelled from the spec: the transmit-engine session state (missing from
src) — the next sequence number to assign and the ordered window of
outstanding entries, oldest first. -/
structure TxWindowState where
  tx_next_seq : Nat
  tx_window : List OutstandingEntry
  deriving DecidableEq

/-- Modelled from the spec: the window bound.  The spec leaves the exact
window size tunable; the only outstanding-packet bound in the source is the
tx queue depth, so the bound is taken as PPOGATT_TX_QUEUE_SIZE. -/
def WINDOW_MAX : Nat := PPOGATT_TX_QUEUE_SIZE

/-- The transmit-engine state at session creation or reset. -/
def txInitState : TxWindowState := ⟨0, []⟩

/-- Modelled from the spec: submit (missing from src), section 4.3 — fails
with WindowFull (here `none`) when the window already holds WINDOW_MAX
entries, otherwise assigns the next sequence number, appends an outstanding
entry, and advances the next sequence modulo 32. -/
def txSubmit (st : TxWindowState) (p : List Nat) : Option TxWindowState :=
  if st.tx_window.length = WINDOW_MAX then none
  else some ⟨(st.tx_next_seq + 1) % 32,
             st.tx_window ++ [⟨st.tx_next_seq % 32, p⟩]⟩

/-- Modelled from the spec: the cumulative clear for ACK of sequence k
(missing from src) — the window is contiguous from the oldest entry, so the
entries covered by the acknowledgement form the prefix up to and including
the entry carrying sequence k. -/
def txClearAcked : List OutstandingEntry → Nat → List OutstandingEntry
  | [], _ => []
  | e :: rest, k => if e.seq = k % 32 then rest else txClearAcked rest k

/-- The states the transmit engine can reach from a fresh session by
successful submissions, cumulative acknowledgement clears, and resets. -/
inductive TxReachable : TxWindowState → Prop where
  | init : TxReachable txInitState
  | submit (st st2 : TxWindowState) (p : List Nat) :
      TxReachable st → txSubmit st p = some st2 → TxReachable st2
  | ack (st : TxWindowState) (k : Nat) :
      TxReachable st → TxReachable ⟨st.tx_next_seq, txClearAcked st.tx_window k⟩
  | reset (st : TxWindowState) :
      TxReachable st → TxReachable txInitState

/-- A concrete full rx queue (the queue depth is 4), used as input below. -/
def fullRxQueue : List ppogatt_packet :=
  [⟨1, [0]⟩, ⟨1, [1]⟩, ⟨1, [2]⟩, ⟨1, [3]⟩]

/-! ## Theorems -/

/-- C3 counterexample: it is not the case that the only call in the rx task
loop body that can suspend the task is the receive on its own inbox — the
body also performs xQueueSendToBack onto the tx queue with portMAX_DELAY,
which blocks when that queue is full. -/
theorem ppogatt_rx_task_blocks_beyond_inbox :
    ¬ (∀ op ∈ ppogatt_rx_main_ops, op.canBlock = true →
        op = KernelOp.xQueueReceive QueueId.ppogatt_rx KTimeout.maxDelay) := by
  decide

/-- C3 (amended): the suspension points of the rx task loop body are exactly
its inbox receive and the blocking send onto the tx queue; the suspension
points of the tx task loop body are exactly its inbox receive and the
bounded (250 ms) notify wait. -/
theorem ppogatt_task_suspension_points :
    ppogatt_rx_main_ops.filter KernelOp.canBlock =
      [KernelOp.xQueueReceive QueueId.ppogatt_rx KTimeout.maxDelay,
       KernelOp.xQueueSendToBack QueueId.ppogatt_tx KTimeout.maxDelay] ∧
    ppogatt_tx_main_ops.filter KernelOp.canBlock =
      [KernelOp.xQueueReceive QueueId.ppogatt_tx KTimeout.maxDelay,
       KernelOp.ulTaskNotifyTake (KTimeout.ticks 250)] := by
  decide

/-- C4: whenever the rx task dequeues a packet from the rx queue, it enqueues
that very packet — identical bytes and identical length — onto the tx queue;
the result does not depend on the header byte in any way, since the packet is
forwarded verbatim. -/
theorem ppogatt_rx_main_echoes (s : EchoQueues) (pkt : ppogatt_packet)
    (rest : List ppogatt_packet) (h : s.rxQ = pkt :: rest) :
    ppogatt_rx_main_step s = some ⟨rest, s.txQ ++ [pkt]⟩ := by
  simp [ppogatt_rx_main_step, h]

/-- Witness for C4 at a concrete queue state. -/
theorem ppogatt_rx_main_echoes_witness :
    ppogatt_rx_main_step ⟨[⟨2, [7, 9]⟩], []⟩ = some ⟨[], [⟨2, [7, 9]⟩]⟩ :=
  ppogatt_rx_main_echoes ⟨[⟨2, [7, 9]⟩], []⟩ ⟨2, [7, 9]⟩ [] rfl

/-- C5 counterexample: with the rx queue full, the inbound event is dropped
(the queue is unchanged) and nothing at all is logged — refuting the part of
the claim that says the drop is logged. -/
theorem ppogatt_callback_rx_drop_unlogged :
    (ppogatt_callback_rx fullRxQueue [9]).queue = fullRxQueue ∧
    (ppogatt_callback_rx fullRxQueue [9]).logs = 0 := by
  decide

/-- C5 (amended): both interrupt-context handlers never block; the rx handler
performs only a non-blocking enqueue, appending a packet with the inbound
bytes when the queue has room; when the queue is full the event is dropped
silently — the queue is unchanged and no log is emitted. -/
theorem ppogatt_isr_nonblocking_drop_silent (q : List ppogatt_packet)
    (buf : List Nat) (n : Nat) :
    (ppogatt_callback_rx q buf).blocked = false ∧
    (ppogatt_callback_txready n).2 = false ∧
    (q.length < PPOGATT_RX_QUEUE_SIZE →
      (ppogatt_callback_rx q buf).queue = q ++ [⟨buf.length, buf⟩]) ∧
    (¬ q.length < PPOGATT_RX_QUEUE_SIZE →
      (ppogatt_callback_rx q buf).queue = q ∧
      (ppogatt_callback_rx q buf).logs = 0) := by
  refine ⟨?_, rfl, ?_, ?_⟩
  · unfold ppogatt_callback_rx
    split <;> rfl
  · intro h
    simp [ppogatt_callback_rx, h]
  · intro h
    simp [ppogatt_callback_rx, h]

/-- Witness for C5 (amended) at a queue with room and at the full queue. -/
theorem ppogatt_isr_nonblocking_drop_silent_witness :
    (ppogatt_callback_rx [] [5]).queue = [] ++ [⟨1, [5]⟩] ∧
    (ppogatt_callback_rx fullRxQueue [5]).queue = fullRxQueue ∧
    (ppogatt_callback_rx fullRxQueue [5]).logs = 0 :=
  ⟨(ppogatt_isr_nonblocking_drop_silent [] [5] 0).2.2.1 (by decide),
   (ppogatt_isr_nonblocking_drop_silent fullRxQueue [5] 0).2.2.2 (by decide)⟩

/-- C6: however often the transport rejects the send, every attempt the tx
retry loop makes passes the very same packet to the driver (it never skips
ahead); the number of warnings logged equals the number of failed attempts
whose bounded notify wait timed out (returned 0); and the loop completes
exactly when the environment trace contains an accepted send — it never
abandons the frame while the transport keeps rejecting. -/
theorem ppogatt_tx_retry_same_frame (pkt : ppogatt_packet)
    (envs : List TxAttemptEnv) :
    (∀ p ∈ (ppogatt_tx_retry pkt envs).1, p = pkt) ∧
    (ppogatt_tx_retry pkt envs).2.1 =
      ((envs.takeWhile fun e => decide (e.sendRv < 0)).filter
        fun e => decide (e.notifyRv = 0)).length ∧
    ((ppogatt_tx_retry pkt envs).2.2 = envs.any fun e => decide (0 ≤ e.sendRv)) := by
  induction envs with
  | nil => exact ⟨by simp [ppogatt_tx_retry], by simp [ppogatt_tx_retry], by
      simp [ppogatt_tx_retry]⟩
  | cons e rest ih =>
    obtain ⟨ih1, ih2, ih3⟩ := ih
    by_cases h : e.sendRv < 0
    · have hd : decide (e.sendRv < 0) = true := by simp [h]
      have ha : decide (0 ≤ e.sendRv) = false := by
        simp only [decide_eq_false_iff_not]
        omega
      refine ⟨?_, ?_, ?_⟩
      · intro p hp
        simp only [ppogatt_tx_retry, if_pos h, List.mem_cons] at hp
        rcases hp with hp | hp
        · exact hp
        · exact ih1 p hp
      · by_cases ht : e.notifyRv = 0
        · simp [ppogatt_tx_retry, if_pos h, List.takeWhile_cons, hd,
            List.filter_cons, ht, ih2]
          omega
        · simp [ppogatt_tx_retry, if_pos h, List.takeWhile_cons, hd,
            List.filter_cons, ht, ih2]
      · simp only [ppogatt_tx_retry, if_pos h, List.any_cons, ha,
          Bool.false_or, ih3]
    · have hd : decide (e.sendRv < 0) = false := by simp [h]
      have ha : decide (0 ≤ e.sendRv) = true := by
        simp only [decide_eq_true_eq]
        omega
      refine ⟨?_, ?_, ?_⟩
      · intro p hp
        simp only [ppogatt_tx_retry, if_neg h, List.mem_singleton] at hp
        exact hp
      · simp [ppogatt_tx_retry, if_neg h, List.takeWhile_cons, hd]
      · simp only [ppogatt_tx_retry, if_neg h, List.any_cons, ha,
          Bool.true_or]

/-- Witness for C6 on a concrete trace: two rejected attempts (one with the
notify wait timing out, one not) followed by an accepted send — one warning,
and the send completes. -/
theorem ppogatt_tx_retry_same_frame_witness :
    ((⟨1, [3]⟩ : ppogatt_packet) ∈
        (ppogatt_tx_retry ⟨1, [3]⟩ [⟨-1, 0⟩, ⟨-1, 7⟩, ⟨0, 0⟩]).1 →
      (⟨1, [3]⟩ : ppogatt_packet) = ⟨1, [3]⟩) ∧
    (ppogatt_tx_retry ⟨1, [3]⟩ [⟨-1, 0⟩, ⟨-1, 7⟩, ⟨0, 0⟩]).2.1 = 1 ∧
    (ppogatt_tx_retry ⟨1, [3]⟩ [⟨-1, 0⟩, ⟨-1, 7⟩, ⟨0, 0⟩]).2.2 = true :=
  ⟨(ppogatt_tx_retry_same_frame ⟨1, [3]⟩ [⟨-1, 0⟩, ⟨-1, 7⟩, ⟨0, 0⟩]).1 ⟨1, [3]⟩,
   ((ppogatt_tx_retry_same_frame ⟨1, [3]⟩ [⟨-1, 0⟩, ⟨-1, 7⟩, ⟨0, 0⟩]).2.1).trans
     (by decide),
   ((ppogatt_tx_retry_same_frame ⟨1, [3]⟩ [⟨-1, 0⟩, ⟨-1, 7⟩, ⟨0, 0⟩]).2.2).trans
     (by decide)⟩

/-- C10: the unchecked copy in the rx callback is in-bounds, and yields a
packet whose bytes and length equal the input, exactly when the inbound
length is at most PPOGATT_MTU; the out-of-bounds case occurs exactly when the
input exceeds PPOGATT_MTU bytes, so it is unreachable precisely when every
caller respects that precondition.  Under the precondition, the packet the
callback enqueues (queue permitting) is that same copy. -/
theorem ppogatt_callback_rx_copy_inbounds_iff (buf : List Nat) :
    (ppogatt_callback_rx_copy buf = .ok ⟨buf.length, buf⟩ ↔
      buf.length ≤ PPOGATT_MTU) ∧
    (ppogatt_callback_rx_copy buf = .error .outOfBounds ↔
      PPOGATT_MTU < buf.length) ∧
    (buf.length ≤ PPOGATT_MTU → ∀ q : List ppogatt_packet,
      q.length < PPOGATT_RX_QUEUE_SIZE →
      ∃ p, ppogatt_callback_rx_copy buf = .ok p ∧
        (ppogatt_callback_rx q buf).queue = q ++ [p]) := by
  refine ⟨?_, ?_, ?_⟩
  · unfold ppogatt_callback_rx_copy
    by_cases h : buf.length ≤ PPOGATT_MTU <;> simp [h]
  · unfold ppogatt_callback_rx_copy
    by_cases h : buf.length ≤ PPOGATT_MTU
    · simp only [if_pos h]
      simp only [PPOGATT_MTU] at h ⊢
      constructor
      · intro hx
        exact absurd hx (by simp)
      · intro hx
        omega
    · simp only [if_neg h]
      simp only [PPOGATT_MTU] at h ⊢
      constructor
      · intro hx
        omega
      · intro hx
        trivial
  · intro h q hq
    exact ⟨⟨buf.length, buf⟩, by simp [ppogatt_callback_rx_copy, h],
      by simp [ppogatt_callback_rx, hq]⟩

/-- Witness for C10 at a concrete in-bounds input and empty queue. -/
theorem ppogatt_callback_rx_copy_inbounds_witness :
    ∃ p, ppogatt_callback_rx_copy [4, 4] = .ok p ∧
      (ppogatt_callback_rx [] [4, 4]).queue = [] ++ [p] :=
  (ppogatt_callback_rx_copy_inbounds_iff [4, 4]).2.2 (by decide) [] (by decide)

/-- Clearing acknowledged entries never grows the window. -/
theorem txClearAcked_length_le (l : List OutstandingEntry) (k : Nat) :
    (txClearAcked l k).length ≤ l.length := by
  induction l with
  | nil => simp [txClearAcked]
  | cons e rest ih =>
    by_cases h : e.seq = k % 32
    · simp [txClearAcked, h]
    · simp only [txClearAcked, h, if_false, List.length_cons]
      omega

/-- C7: in every reachable state of the transmit engine the window holds at
most WINDOW_MAX outstanding entries, and WINDOW_MAX is at most 16, half the
32-value sequence space. -/
theorem ppogatt_tx_window_bounded :
    (∀ st : TxWindowState, TxReachable st →
      st.tx_window.length ≤ WINDOW_MAX) ∧
    WINDOW_MAX ≤ 16 := by
  constructor
  · intro st h
    induction h with
    | init => simp [txInitState]
    | submit st st2 p hr hs ih =>
      unfold txSubmit at hs
      by_cases hfull : st.tx_window.length = WINDOW_MAX
      · simp [hfull] at hs
      · rw [if_neg hfull] at hs
        cases hs
        simp only [List.length_append, List.length_singleton]
        omega
    | ack st k hr ih =>
      exact le_trans (txClearAcked_length_le st.tx_window k) ih
    | reset st hr ih => simp [txInitState]
  · decide

/-- Witness for C7 at the initial state. -/
theorem ppogatt_tx_window_bounded_witness :
    txInitState.tx_window.length ≤ WINDOW_MAX ∧ WINDOW_MAX ≤ 16 :=
  ⟨ppogatt_tx_window_bounded.1 txInitState TxReachable.init,
   ppogatt_tx_window_bounded.2⟩

/-- Delivery for a loss-free run of in-order DATA frames starting at any
sequence point: every payload comes out exactly once, in order. -/
theorem rxRun_mkDataFrames_delivers (ps : List (List Nat)) :
    ∀ (s : Nat) (la : Option Nat),
      deliveredPayloads (rxRun ⟨s % 32, la⟩ (mkDataFrames s ps)).2 = ps := by
  induction ps with
  | nil => intro s la; rfl
  | cons p ps ih =>
    intro s la
    have h1 : s % 32 % 32 = s % 32 := by omega
    have h2 : (s % 32 + 1) % 32 = (s + 1) % 32 := by omega
    simp only [mkDataFrames, rxRun, rxStep, h1, if_pos, List.filterMap_append,
      deliveredPayloads, List.filterMap_cons, List.filterMap_nil, h2]
    rw [List.singleton_append]
    exact congrArg (List.cons p) (ih (s + 1) (some (s % 32)))

/-- C1: for every loss-free sequence of submitted payloads — arriving as
in-order DATA frames with consecutive sequence numbers from a fresh session —
the receive engine delivers exactly those payloads upward through the
delivery callback, each exactly once, in submission order, with no
duplicates. -/
theorem ppogatt_rx_delivers_exactly_once (ps : List (List Nat)) :
    deliveredPayloads (rxRun rxInitState (mkDataFrames 0 ps)).2 = ps := by
  have h := rxRun_mkDataFrames_delivers ps 0 none
  simpa [rxInitState] using h

/-- Acknowledged sequences distribute over appended output lists. -/
theorem ackSeqsOf_append (x y : List RxOut) :
    ackSeqsOf (x ++ y) = ackSeqsOf x ++ ackSeqsOf y := by
  simp [ackSeqsOf]

/-- If sequence k never arrives as DATA, every acknowledgement the receive
engine emits stays below k, for any starting state in which the expected
sequence is at most k and any previously acknowledged sequence is below k. -/
theorem rxRun_acks_lt_of_missing (k : Nat) (hk : k < 32) (fs : List PFrame) :
    ∀ st : RxState,
      st.rx_expected_seq ≤ k →
      (∀ b, st.lastAcked = some b → b < k) →
      (∀ f ∈ fs, f.cmd = .PPOGATT_CMD_DATA → f.seq % 32 ≠ k) →
      ∀ a ∈ ackSeqsOf (rxRun st fs).2, a < k := by
  induction fs with
  | nil =>
    intro st h1 h2 h3 a ha
    simp [rxRun, ackSeqsOf] at ha
  | cons f fs ih =>
    intro st h1 h2 h3 a ha
    obtain ⟨c, sq, pl⟩ := f
    have hf : c = ppogatt_cmd.PPOGATT_CMD_DATA → sq % 32 ≠ k :=
      h3 ⟨c, sq, pl⟩ (List.mem_cons_self _ _)
    have h3x : ∀ g ∈ fs, g.cmd = .PPOGATT_CMD_DATA → g.seq % 32 ≠ k :=
      fun g hg => h3 g (List.mem_cons_of_mem _ hg)
    simp only [rxRun] at ha
    cases c with
    | PPOGATT_CMD_DATA =>
      by_cases he : sq % 32 = st.rx_expected_seq
      · have hne : sq % 32 ≠ k := hf rfl
        simp only [rxStep, if_pos he, ackSeqsOf_append, List.mem_append] at ha
        rcases ha with ha | ha
        · have : a = sq % 32 := by
            simpa [ackSeqsOf] using ha
          omega
        · refine ih ⟨(st.rx_expected_seq + 1) % 32, some (sq % 32)⟩ ?_ ?_ h3x a ha
          · simp only
            omega
          · intro b hb
            simp only [Option.some.injEq] at hb
            omega
      · by_cases hla : some (sq % 32) = st.lastAcked
        · have hblt : sq % 32 < k := h2 (sq % 32) hla.symm
          simp only [rxStep, if_neg he, if_pos hla, ackSeqsOf_append,
            List.mem_append] at ha
          rcases ha with ha | ha
          · have : a = sq % 32 := by
              simpa [ackSeqsOf] using ha
            omega
          · exact ih st h1 h2 h3x a ha
        · simp only [rxStep, if_neg he, if_neg hla, ackSeqsOf_append,
            List.mem_append] at ha
          rcases ha with ha | ha
          · simp [ackSeqsOf] at ha
          · exact ih st h1 h2 h3x a ha
    | PPOGATT_CMD_ACK =>
      simp only [rxStep, ackSeqsOf_append, List.mem_append] at ha
      rcases ha with ha | ha
      · simp [ackSeqsOf] at ha
      · exact ih st h1 h2 h3x a ha
    | PPOGATT_CMD_RESET_REQ =>
      simp only [rxStep, ackSeqsOf_append, List.mem_append] at ha
      rcases ha with ha | ha
      · simp [ackSeqsOf] at ha
      · refine ih ⟨0, none⟩ (Nat.zero_le k) ?_ h3x a ha
        intro b hb
        simp at hb
    | PPOGATT_CMD_RESET_ACK =>
      simp only [rxStep, ackSeqsOf_append, List.mem_append] at ha
      rcases ha with ha | ha
      · simp [ackSeqsOf] at ha
      · exact ih st h1 h2 h3x a ha

/-- C2: an inbound DATA frame whose sequence is neither the expected sequence
nor the last acknowledged one is discarded with no output of any kind (no
acknowledgement, no delivery, no state change); consequently, running a fresh
session over any inbound frame list in which DATA sequence k never occurs,
every acknowledgement the receiver emits is for a sequence below k — no
sequence beyond the lost one is ever acknowledged until k arrives. -/
theorem ppogatt_rx_gap_silent_no_ack_beyond_loss :
    (∀ (st : RxState) (f : PFrame),
      f.cmd = .PPOGATT_CMD_DATA →
      f.seq % 32 ≠ st.rx_expected_seq →
      some (f.seq % 32) ≠ st.lastAcked →
      rxStep st f = (st, [])) ∧
    (∀ (k : Nat) (fs : List PFrame),
      k < 32 →
      (∀ f ∈ fs, f.cmd = .PPOGATT_CMD_DATA → f.seq % 32 ≠ k) →
      ∀ a ∈ ackSeqsOf (rxRun rxInitState fs).2, a < k) := by
  constructor
  · intro st f hc he hla
    obtain ⟨c, sq, pl⟩ := f
    cases hc
    simp only [rxStep, if_neg he, if_neg hla]
  · intro k fs hk hmiss a ha
    exact rxRun_acks_lt_of_missing k hk fs rxInitState (Nat.zero_le k)
      (by intro b hb; simp [rxInitState] at hb) hmiss a ha

/-- Witness for C2: a gap frame (sequence 5 at a fresh session) produces no
output and leaves the state unchanged; and on the trace DATA 0 then DATA 2
with sequence 1 missing, the acknowledgement for 0 — concretely emitted — is
below 1. -/
theorem ppogatt_rx_gap_silent_witness :
    rxStep rxInitState ⟨.PPOGATT_CMD_DATA, 5, [7]⟩ = (rxInitState, []) ∧
    (0 : Nat) ∈ ackSeqsOf
        (rxRun rxInitState
          [⟨.PPOGATT_CMD_DATA, 0, [1]⟩, ⟨.PPOGATT_CMD_DATA, 2, [2]⟩]).2 ∧
    (0 : Nat) < 1 :=
  ⟨ppogatt_rx_gap_silent_no_ack_beyond_loss.1 rxInitState
      ⟨.PPOGATT_CMD_DATA, 5, [7]⟩ rfl (by decide) (by decide),
   by decide,
   ppogatt_rx_gap_silent_no_ack_beyond_loss.2 1
      [⟨.PPOGATT_CMD_DATA, 0, [1]⟩, ⟨.PPOGATT_CMD_DATA, 2, [2]⟩]
      (by decide) (by decide) 0 (by decide)⟩

/-- The header byte packs disjoint bit fields, so the shift-and-or equals the
corresponding arithmetic combination for any 5-bit sequence and 3-bit
command value. -/
theorem shiftLeft_or_small :
    ∀ b : Nat, b < 8 → ∀ a : Nat, a < 32 → ((a <<< 3) ||| b) = 8 * a + b := by
  decide

/-- Every command value of the source enum is below 8. -/
theorem ppogatt_cmd_val_lt (c : ppogatt_cmd) : c.val < 8 := by
  cases c <;> decide

/-- C8: byte 0 of every encoded frame is the sequence (mod 32) shifted left
by 3 bits OR'd with the command value in the 3 low bits, which equals
8 * seq + cmd; the command values are exactly 0 = DATA, 1 = ACK,
2 = RESET_REQ, 3 = RESET_ACK; payload bytes follow the header only for DATA
frames; and whenever the payload respects the size invariant the whole frame,
header included, fits in the 256-byte MTU. -/
theorem ppogatt_frame_wire_format (f : PFrame) :
    (ppogatt_encode f).head? =
      some (((f.seq % 32) <<< 3) ||| f.cmd.val) ∧
    (((f.seq % 32) <<< 3) ||| f.cmd.val) = 8 * (f.seq % 32) + f.cmd.val ∧
    (ppogatt_cmd.val .PPOGATT_CMD_DATA = 0 ∧
     ppogatt_cmd.val .PPOGATT_CMD_ACK = 1 ∧
     ppogatt_cmd.val .PPOGATT_CMD_RESET_REQ = 2 ∧
     ppogatt_cmd.val .PPOGATT_CMD_RESET_ACK = 3) ∧
    (f.cmd = .PPOGATT_CMD_DATA →
      ppogatt_encode f = (((f.seq % 32) <<< 3) ||| f.cmd.val) :: f.payload) ∧
    (f.cmd ≠ .PPOGATT_CMD_DATA →
      ppogatt_encode f = [((f.seq % 32) <<< 3) ||| f.cmd.val]) ∧
    (f.payload.length ≤ PPOGATT_MTU - 1 →
      (ppogatt_encode f).length ≤ PPOGATT_MTU) := by
  obtain ⟨c, sq, pl⟩ := f
  refine ⟨?_, ?_, ⟨rfl, rfl, rfl, rfl⟩, ?_, ?_, ?_⟩
  · cases c <;> rfl
  · exact shiftLeft_or_small (ppogatt_cmd.val c) (ppogatt_cmd_val_lt c)
      (sq % 32) (by omega)
  · intro hc
    cases hc
    rfl
  · intro hc
    cases c
    · exact absurd rfl hc
    all_goals rfl
  · intro hlen
    cases c
    · simp only [ppogatt_encode, List.length_cons]
      simp only [PPOGATT_MTU] at hlen ⊢
      omega
    all_goals simp [ppogatt_encode, PPOGATT_MTU]

/-- Witness for C8 at a concrete DATA frame with sequence 2 and one payload
byte: the header byte is 16 and the frame fits in the MTU. -/
theorem ppogatt_frame_wire_format_witness :
    (ppogatt_encode ⟨.PPOGATT_CMD_DATA, 2, [9]⟩).head? =
      some (((2 % 32) <<< 3) ||| ppogatt_cmd.val .PPOGATT_CMD_DATA) ∧
    ppogatt_encode ⟨.PPOGATT_CMD_DATA, 2, [9]⟩ =
      (((2 % 32) <<< 3) ||| ppogatt_cmd.val .PPOGATT_CMD_DATA) :: [9] ∧
    (ppogatt_encode ⟨.PPOGATT_CMD_DATA, 2, [9]⟩).length ≤ PPOGATT_MTU :=
  ⟨(ppogatt_frame_wire_format ⟨.PPOGATT_CMD_DATA, 2, [9]⟩).1,
   (ppogatt_frame_wire_format ⟨.PPOGATT_CMD_DATA, 2, [9]⟩).2.2.2.1 rfl,
   (ppogatt_frame_wire_format ⟨.PPOGATT_CMD_DATA, 2, [9]⟩).2.2.2.2.2
     (by decide)⟩

/-- C9: receiving RESET_REQ with the expected sequence already at 0 still
replies RESET_ACK (and signals the transmit engine) and leaves the expected
sequence at 0; applying the reset operation twice gives exactly the result of
applying it once, and the freshly reset session is a fixed point of reset —
reset is idempotent. -/
theorem ppogatt_reset_idempotent :
    (∀ st : RxState, st.rx_expected_seq = 0 →
      (rxStep st resetReqFrame).2 = [.sendResetAck, .txReset] ∧
      (rxStep st resetReqFrame).1.rx_expected_seq = 0) ∧
    (∀ st : RxState,
      rxStep (rxStep st resetReqFrame).1 resetReqFrame =
        rxStep st resetReqFrame) ∧
    (rxStep rxInitState resetReqFrame).1 = rxInitState := by
  exact ⟨fun st h => ⟨rfl, rfl⟩, fun st => rfl, rfl⟩

/-- Witness for C9 at the freshly reset session. -/
theorem ppogatt_reset_idempotent_witness :
    (rxStep rxInitState resetReqFrame).2 = [.sendResetAck, .txReset] ∧
    (rxStep rxInitState resetReqFrame).1.rx_expected_seq = 0 :=
  ppogatt_reset_idempotent.1 rxInitState rfl
